import Mathlib

/-
  Verification of the metrics engine of the `rmon` terminal dashboard
  (src/metrics.rs, src/main.rs, src/ui.rs).

  Shallow embedding conventions:
  * `f32` values are modelled as `ℚ` (the claims under study do not depend on
    rounding behaviour); `u32`/`u64`/`usize` are modelled as `Nat`, with
    `Nat` subtraction standing for `saturating_sub`.
  * `VecDeque<f32>` histories are modelled as `List ℚ` (front = oldest).
  * Environment reads (sysinfo snapshots, /sys file contents, subprocess
    output) are passed as explicit arguments to the state-transition
    functions, already split into the shapes the source parses them into.
-/

namespace Rmon

/-- Model of the bounded-history push pattern repeated verbatim for every
series in `SystemMetrics` (`if history.len() >= self.max_history
{ history.pop_front(); } history.push_back(value);`). -/
def push_history (max_history : Nat) (h : List ℚ) (v : ℚ) : List ℚ :=
  (if max_history ≤ h.length then h.tail else h) ++ [v]

/-- A sequence of pushes into an initially empty series, as produced by
repeated `SystemMetrics::update` ticks starting from `SystemMetrics::new`
(all histories start empty). -/
def run_pushes (max_history : Nat) (vs : List ℚ) : List ℚ :=
  vs.foldl (push_history max_history) []

/-- Model of the latest-value accessors
(`history.back().copied().unwrap_or(0.0)`). -/
def latest (h : List ℚ) : ℚ :=
  h.getLast?.getD 0

theorem foldl_push_history (m : Nat) (hm : 1 ≤ m) :
    ∀ (vs h : List ℚ), h.length ≤ m →
      vs.foldl (push_history m) h = (h ++ vs).drop (h.length + vs.length - m) := by
  intro vs
  induction vs with
  | nil =>
      intro h hle
      simp only [List.foldl_nil, List.append_nil, List.length_nil, Nat.add_zero]
      rw [Nat.sub_eq_zero_of_le hle, List.drop_zero]
  | cons v tl ih =>
      intro h hle
      rw [List.foldl_cons]
      by_cases hge : m ≤ h.length
      · have hlen : h.length = m := Nat.le_antisymm hle hge
        obtain ⟨a, t, rfl⟩ : ∃ a t, h = a :: t := by
          cases h with
          | nil => exfalso; simp at hlen; omega
          | cons a t => exact ⟨a, t, rfl⟩
        have htlen : t.length + 1 = m := by simpa using hlen
        have hpush : push_history m (a :: t) v = t ++ [v] := by
          simp only [push_history, List.length_cons, List.tail_cons]
          rw [if_pos (by omega)]
        rw [hpush, ih (t ++ [v]) (by simp; omega)]
        have h1 : (t ++ [v]).length + tl.length - m = tl.length := by
          simp; omega
        have h3 : (a :: t).length + (v :: tl).length - m = tl.length + 1 := by
          simp; omega
        rw [h1, h3, List.cons_append, List.drop_succ_cons, List.append_assoc]
        rfl
      · have hlt : h.length < m := Nat.lt_of_not_le hge
        have hpush : push_history m h v = h ++ [v] := by
          simp only [push_history, if_neg hge]
        rw [hpush, ih (h ++ [v]) (by simp; omega)]
        have h1 : (h ++ [v]).length + tl.length - m = h.length + (v :: tl).length - m := by
          simp; omega
        rw [h1, List.append_assoc]
        rfl

/-- Claim C1 (amended: the law requires `max_history ≥ 1`): for every bounded
history series, a sequence of pushes longer than `max_history` leaves exactly
the most recent `max_history` values in push order (FIFO eviction), a sequence
not exceeding `max_history` is retained whole in order, and the length never
exceeds `max_history`. -/
theorem C1_ring_history_fifo (m : Nat) (vs : List ℚ) (hm : 1 ≤ m) :
    run_pushes m vs = vs.drop (vs.length - m)
    ∧ (run_pushes m vs).length = min vs.length m
    ∧ (m < vs.length → (run_pushes m vs).length = m)
    ∧ (vs.length ≤ m → run_pushes m vs = vs)
    ∧ (run_pushes m vs).length ≤ m := by
  have key : run_pushes m vs = vs.drop (vs.length - m) := by
    have h := foldl_push_history m hm vs [] (by simp)
    simpa [run_pushes] using h
  have hlen : (run_pushes m vs).length = min vs.length m := by
    rw [key, List.length_drop]; omega
  refine ⟨key, hlen, ?_, ?_, ?_⟩
  · intro hgt; rw [hlen]; omega
  · intro hle
    rw [key, Nat.sub_eq_zero_of_le hle, List.drop_zero]
  · rw [hlen]; omega

/-- Witness for C1: the end-to-end instance from the claim, with
`max_history = 3` and pushes `10, 20, 30, 40`. -/
theorem C1_ring_history_fifo_witness :
    run_pushes 3 [10, 20, 30, 40] = [20, 30, 40]
    ∧ (run_pushes 3 [10, 20, 30, 40]).length = 3
    ∧ latest (run_pushes 3 [10, 20, 30, 40]) = 40 := by
  have h := C1_ring_history_fifo 3 [10, 20, 30, 40] (by decide)
  refine ⟨?_, ?_, ?_⟩
  · rw [h.1]; rfl
  · rw [h.2.1]; decide
  · rw [h.1]; rfl

/-- Counterexample to C1 as stated: with `max_history = 0` (reachable via the
`--history 0` command-line option) a single push leaves one retained element,
so the series length exceeds `max_history` and is not equal to it. -/
theorem C1_ring_history_fifo_counterexample :
    (run_pushes 0 [10]).length = 1 ∧ ¬(run_pushes 0 [10]).length ≤ 0 := by
  constructor
  · rfl
  · decide

/-- Result of one `nvidia-smi` invocation, as seen after the source's
layered checks: `failure` stands for a launch error, a non-zero exit
status, non-UTF-8 output or an empty stdout; `line parts` stands for the
first stdout line already split on commas with each field trimmed. -/
inductive QueryResult where
  | failure : QueryResult
  | line : List String → QueryResult
deriving Repr, DecidableEq

/-- The `SystemMetrics` struct of src/metrics.rs. -/
structure SystemMetrics where
  cpu_history : List ℚ
  memory_history : List ℚ
  disk_history : List ℚ
  network_rx_history : List ℚ
  network_tx_history : List ℚ
  prev_rx_bytes : Nat
  prev_tx_bytes : Nat
  initial_rx_bytes : Nat
  initial_tx_bytes : Nat
  per_core_usage : List ℚ
  per_core_temperatures : List ℚ
  gpu_usage : Option ℚ
  gpu_temperature : Option ℚ
  gpu_fan_speed : Option ℚ
  gpu_power_draw : Option ℚ
  gpu_memory_used : Option ℚ
  gpu_memory_total : Option ℚ
  gpu_name : Option String
  gpu_usage_history : List ℚ
  gpu_memory_percent_history : List ℚ
  max_history : Nat
deriving Repr, DecidableEq

/-- Model of `SystemMetrics::new`: the summed non-virtual interface counters read at
construction are passed in as `initial_rx`/`initial_tx`; `prev_*` starts
equal to the baseline and every history starts empty. -/
def SystemMetrics.new (max_history initial_rx initial_tx : Nat) : SystemMetrics where
  cpu_history := []
  memory_history := []
  disk_history := []
  network_rx_history := []
  network_tx_history := []
  prev_rx_bytes := initial_rx
  prev_tx_bytes := initial_tx
  initial_rx_bytes := initial_rx
  initial_tx_bytes := initial_tx
  per_core_usage := []
  per_core_temperatures := []
  gpu_usage := none
  gpu_temperature := none
  gpu_fan_speed := none
  gpu_power_draw := none
  gpu_memory_used := none
  gpu_memory_total := none
  gpu_name := none
  gpu_usage_history := []
  gpu_memory_percent_history := []
  max_history := max_history

/-- The rate expression of `SystemMetrics::update_network_stats`
(`if self.prev_*_bytes > 0 && time_diff > 0.0 { saturating_sub / time_diff
* 8.0 / 1000.0 } else { 0.0 }`); `Nat` subtraction is `saturating_sub`. -/
def compute_rate (prev total : Nat) (time_diff : ℚ) : ℚ :=
  if 0 < prev ∧ 0 < time_diff then ((total - prev : Nat) : ℚ) / time_diff * 8 / 1000
  else 0

/-- Model of `SystemMetrics::update_network_stats`: the summed counters of the
non-virtual interfaces and the elapsed seconds are passed in; rates are
pushed into both histories and `prev_*` is overwritten with the new totals. -/
def SystemMetrics.update_network_stats (st : SystemMetrics)
    (total_rx total_tx : Nat) (time_diff : ℚ) : SystemMetrics :=
  let rx_rate := compute_rate st.prev_rx_bytes total_rx time_diff
  let tx_rate := compute_rate st.prev_tx_bytes total_tx time_diff
  { st with
    network_rx_history := push_history st.max_history st.network_rx_history rx_rate,
    network_tx_history := push_history st.max_history st.network_tx_history tx_rate,
    prev_rx_bytes := total_rx,
    prev_tx_bytes := total_tx }

/-- One network tick, taking the sampled `(total_rx, total_tx, time_diff)`. -/
def net_tick (st : SystemMetrics) (x : Nat × Nat × ℚ) : SystemMetrics :=
  st.update_network_stats x.1 x.2.1 x.2.2

/-- Model of `SystemMetrics::total_network_bytes`: session totals relative to the
construction baseline, via saturating subtraction. -/
def SystemMetrics.total_network_bytes (st : SystemMetrics) : Nat × Nat :=
  (st.prev_rx_bytes - st.initial_rx_bytes, st.prev_tx_bytes - st.initial_tx_bytes)

/-- Model of `SystemMetrics::gpu_memory_usage_percent`. -/
def SystemMetrics.gpu_memory_usage_percent (st : SystemMetrics) : Option ℚ :=
  match st.gpu_memory_used, st.gpu_memory_total with
  | some used, some total => if 0 < total then some (used / total * 100) else none
  | _, _ => none

/-- Model of `SystemMetrics::update_gpu_history`: on every tick one sample is pushed
into each GPU history, defaulting to 0.0 when the underlying value is
absent. -/
def SystemMetrics.update_gpu_history (st : SystemMetrics) : SystemMetrics :=
  { st with
    gpu_usage_history :=
      push_history st.max_history st.gpu_usage_history (st.gpu_usage.getD 0),
    gpu_memory_percent_history :=
      push_history st.max_history st.gpu_memory_percent_history
        (st.gpu_memory_usage_percent.getD 0) }

/-- The final failure branch of `SystemMetrics::update_gpu_stats`: clear all
GPU fields. -/
def clear_gpu_fields (st : SystemMetrics) : SystemMetrics :=
  { st with gpu_usage := none, gpu_temperature := none, gpu_fan_speed := none,
            gpu_power_draw := none, gpu_memory_used := none,
            gpu_memory_total := none, gpu_name := none }

/-- The reduced-query fallback of `SystemMetrics::update_gpu_stats`
(utilization + temperature only); on success it clears every advanced
field, on any failure it clears everything. `parse` abstracts Rust's
`str::parse::<f32>` (its exact numeric behaviour is irrelevant to the
claims). -/
def apply_fallback_query (parse : String → Option ℚ) (st : SystemMetrics) :
    QueryResult → SystemMetrics
  | QueryResult.failure => clear_gpu_fields st
  | QueryResult.line parts =>
      if 2 ≤ parts.length then
        { st with
          gpu_usage := parse (parts.getD 0 ""),
          gpu_temperature := parse (parts.getD 1 ""),
          gpu_fan_speed := none, gpu_power_draw := none,
          gpu_memory_used := none, gpu_memory_total := none, gpu_name := none }
      else clear_gpu_fields st

/-- Model of `SystemMetrics::update_gpu_stats`: comprehensive seven-field query with
the `[Not Supported]` sentinel mapped to absent, falling back to the reduced
query on failure or field-count mismatch. -/
def SystemMetrics.update_gpu_stats (parse : String → Option ℚ)
    (st : SystemMetrics) (comprehensive fallback : QueryResult) : SystemMetrics :=
  match comprehensive with
  | QueryResult.line parts =>
      if 7 ≤ parts.length then
        { st with
          gpu_name :=
            if parts.getD 0 "" ≠ "" ∧ parts.getD 0 "" ≠ "[Not Supported]" then
              some (parts.getD 0 "")
            else none,
          gpu_usage := parse (parts.getD 1 ""),
          gpu_temperature := parse (parts.getD 2 ""),
          gpu_fan_speed :=
            if parts.getD 3 "" ≠ "[Not Supported]" then parse (parts.getD 3 "") else none,
          gpu_power_draw :=
            if parts.getD 4 "" ≠ "[Not Supported]" then parse (parts.getD 4 "") else none,
          gpu_memory_used :=
            if parts.getD 5 "" ≠ "[Not Supported]" then parse (parts.getD 5 "") else none,
          gpu_memory_total :=
            if parts.getD 6 "" ≠ "[Not Supported]" then parse (parts.getD 6 "") else none }
      else apply_fallback_query parse st fallback
  | QueryResult.failure => apply_fallback_query parse st fallback

/-- Ascending order on the core index parsed from a sensor label
("Core N"): the key of the `temp_map.sort_by_key(|&(core_num, _)| core_num)`
call in `SystemMetrics::read_hwmon_core_temperatures`. -/
def coreLe (a b : Nat × ℚ) : Prop := a.1 ≤ b.1

instance : DecidableRel coreLe := fun a b => Nat.decLe a.1 b.1

instance : IsTotal (Nat × ℚ) coreLe := ⟨fun a b => Nat.le_total a.1 b.1⟩

instance : IsTrans (Nat × ℚ) coreLe := ⟨fun _ _ _ hab hbc => Nat.le_trans hab hbc⟩

/-- Strict version of `coreLe`, used to reason about uniqueness. -/
def coreLt (a b : Nat × ℚ) : Prop := a.1 < b.1

instance : IsAntisymm (Nat × ℚ) coreLt :=
  ⟨fun _ _ h1 h2 => absurd (Nat.lt_trans h1 h2) (Nat.lt_irrefl _)⟩

/-- Tail of `SystemMetrics::read_hwmon_core_temperatures`: given the
collected `(core_index, value_celsius)` pairs (accepted readings, in the
order the sensor files were encountered), sort stably by core index
ascending and emit the values as a dense sequence. Rust's stable
`sort_by_key` is modelled by `List.insertionSort`, which is stable. -/
def read_hwmon_core_temperatures (temp_map : List (Nat × ℚ)) : List ℚ :=
  (List.insertionSort coreLe temp_map).map Prod.snd

/-- Arithmetic mean, as used by the thermal-zone padding path of
`SystemMetrics::update_per_core_temperatures`. -/
def list_avg (l : List ℚ) : ℚ := l.sum / l.length

/-- Model of `SystemMetrics::update_per_core_temperatures`: the hwmon per-core
readings (already mapped through `read_hwmon_core_temperatures`) and the
thermal-zone fallback readings are passed in as environment; `None` models
the corresponding reader returning `None`. -/
def SystemMetrics.update_per_core_temperatures (st : SystemMetrics)
    (hwmon_temps : Option (List ℚ)) (thermal_temps : Option (List ℚ)) : SystemMetrics :=
  match hwmon_temps with
  | some physical_temps =>
      let logical_cores := st.per_core_usage.length
      let physical_cores := physical_temps.length
      if 0 < physical_cores ∧ physical_cores < logical_cores then
        { st with per_core_temperatures :=
            (List.range logical_cores).map (fun logical_core =>
              physical_temps.getD
                (if logical_core < physical_cores then logical_core
                 else logical_core % physical_cores) 0) }
      else if 0 < physical_cores then
        { st with per_core_temperatures :=
            (List.range logical_cores).map (fun logical_core =>
              if logical_core < physical_cores then physical_temps.getD logical_core 0
              else physical_temps.getD (physical_cores - 1) 0) }
      else { st with per_core_temperatures := [] }
  | none =>
      match thermal_temps with
      | some temps =>
          let logical_cores := st.per_core_usage.length
          if temps.length < logical_cores then
            { st with per_core_temperatures :=
                if temps ≠ [] then
                  temps ++ List.replicate (logical_cores - temps.length) (list_avg temps)
                else temps }
          else { st with per_core_temperatures := temps }
      | none => { st with per_core_temperatures := [] }

/-- The `GpuProcess` struct of src/ui.rs. -/
structure GpuProcess where
  pid : Nat
  name : String
  memory_mb : Nat
  gpu_util : Option Nat
  mem_util : Option Nat
deriving Repr, DecidableEq

/-- A parsed row of the `--query-compute-apps=pid,name,used_memory` source
(source (a)). -/
structure ComputeApp where
  pid : Nat
  name : String
  used_memory : Nat
deriving Repr, DecidableEq

/-- A parsed row of the `pmon -c 1 -s u` monitor (source (b)): the `-`
sentinel and parse failures in the `sm`/`mem` columns are already mapped to
`none`, and `command` is the trailing command-name field
(`parts[6..].join(" ")`). -/
structure PmonRecord where
  pid : Nat
  gpu_util : Option Nat
  mem_util : Option Nat
  command : String
deriving Repr, DecidableEq

/-- A parsed row of the `--query-apps=pid,name,used_memory` graphics source
(source (c)). -/
structure GraphicsApp where
  pid : Nat
  name : String
  used_memory : Nat
deriving Repr, DecidableEq

/-- Model of `processes.iter_mut().find(...)` followed by a mutation of the found
record: rewrite the first element satisfying `p`, leave the rest unchanged. -/
def updateFirst (p : α → Bool) (f : α → α) : List α → List α
  | [] => []
  | x :: xs => if p x then f x :: xs else x :: updateFirst p f xs

/-- Descending order on `memory_mb`: the relation realised by the final
`processes.sort_by(|a, b| b.memory_mb.cmp(&a.memory_mb))` (a stable sort). -/
def memGe (a b : GpuProcess) : Prop := b.memory_mb ≤ a.memory_mb

instance : DecidableRel memGe := fun a b => Nat.decLe b.memory_mb a.memory_mb

instance : IsTotal GpuProcess memGe := ⟨fun a b => Nat.le_total b.memory_mb a.memory_mb⟩

instance : IsTrans GpuProcess memGe := ⟨fun _ _ _ hab hbc => Nat.le_trans hbc hab⟩

/-- Processing of one pmon row in `get_gpu_processes`: if the pid is already
present, overwrite the utilization fields of the first matching record
(unconditionally); otherwise insert a new record with memory 0 and the
monitor's command name. -/
def applyPmon (ps : List GpuProcess) (r : PmonRecord) : List GpuProcess :=
  if ps.any (fun q => q.pid == r.pid) then
    updateFirst (fun q => q.pid == r.pid)
      (fun q => { q with gpu_util := r.gpu_util, mem_util := r.mem_util }) ps
  else
    ps ++ [⟨r.pid, r.command, 0, r.gpu_util, r.mem_util⟩]

/-- Processing of one graphics row in `get_gpu_processes`: if the pid is
already present, replace the memory of the first matching record only when
the new value is strictly greater; otherwise insert a new record. -/
def applyGraphics (ps : List GpuProcess) (r : GraphicsApp) : List GpuProcess :=
  if ps.any (fun q => q.pid == r.pid) then
    updateFirst (fun q => q.pid == r.pid)
      (fun q => if q.memory_mb < r.used_memory then { q with memory_mb := r.used_memory }
                else q) ps
  else
    ps ++ [⟨r.pid, r.name, r.used_memory, none, none⟩]

/-- Model of `get_gpu_processes` of src/ui.rs at the parsed-record level: start from
the compute-app list, fold in the pmon rows, then the graphics rows, and
stably sort descending by memory. -/
def get_gpu_processes (a : List ComputeApp) (b : List PmonRecord)
    (c : List GraphicsApp) : List GpuProcess :=
  let s := a.map (fun r => GpuProcess.mk r.pid r.name r.used_memory none none)
  let s := b.foldl applyPmon s
  let s := c.foldl applyGraphics s
  List.insertionSort memGe s

/-- The `ProcessInfo` struct of src/main.rs. -/
structure ProcessInfo where
  pid : Nat
  name : String
  cpu_usage : ℚ
  memory_usage : Nat
  user : String
deriving Repr, DecidableEq

/-- The `ProcessSortMode` enum of src/main.rs. -/
inductive ProcessSortMode where
  | cpu : ProcessSortMode
  | memory : ProcessSortMode
deriving Repr, DecidableEq

/-- The "a sorts no later than b" relation induced by the comparator passed
to `processes.sort_by` in `App::refresh_processes_cached`: CPU descending
with memory tie-break, or memory descending with CPU tie-break. -/
def procRel : ProcessSortMode → ProcessInfo → ProcessInfo → Prop
  | ProcessSortMode.cpu, a, b =>
      b.cpu_usage ≤ a.cpu_usage ∧ (b.cpu_usage = a.cpu_usage → b.memory_usage ≤ a.memory_usage)
  | ProcessSortMode.memory, a, b =>
      b.memory_usage ≤ a.memory_usage ∧ (b.memory_usage = a.memory_usage → b.cpu_usage ≤ a.cpu_usage)

instance (m : ProcessSortMode) : DecidableRel (procRel m) := fun a b =>
  match m with
  | ProcessSortMode.cpu =>
      inferInstanceAs (Decidable (b.cpu_usage ≤ a.cpu_usage ∧
        (b.cpu_usage = a.cpu_usage → b.memory_usage ≤ a.memory_usage)))
  | ProcessSortMode.memory =>
      inferInstanceAs (Decidable (b.memory_usage ≤ a.memory_usage ∧
        (b.memory_usage = a.memory_usage → b.cpu_usage ≤ a.cpu_usage)))

/-- Model of `App::refresh_processes_cached`: filter out empty names and memory
≤ 1024 bytes, stably sort by the active mode, truncate to 500 entries and
clamp the scroll cursor; the raw process enumeration is passed in. Returns
the new table and the clamped scroll position. -/
def refresh_processes_cached (raw : List ProcessInfo) (mode : ProcessSortMode)
    (scroll : Nat) : List ProcessInfo × Nat :=
  let ps := raw.filter (fun p => decide (p.name ≠ "" ∧ 1024 < p.memory_usage))
  let ps := List.insertionSort (procRel mode) ps
  let ps := ps.take 500
  (ps, if ps.length ≤ scroll then ps.length - 1 else scroll)

/-- The slice of the `App` struct of src/main.rs that `kill_process`
touches. -/
structure AppState where
  processes : List ProcessInfo
  process_scroll : Nat
  process_sort_mode : ProcessSortMode
deriving Repr, DecidableEq

/-- Outcome of launching the external `kill -9 <pid>` command:
`launched ok` is `Ok(output)` with `ok = output.status.success()`;
`launchError` is `Err(_)`. -/
inductive KillOutcome where
  | launched : Bool → KillOutcome
  | launchError : KillOutcome
deriving Repr, DecidableEq

/-- Model of `App::kill_process`: on a successful kill, and on a launch error, the
process table is refreshed (from the raw enumeration passed in); when the
command runs but reports failure, the state is left untouched. The function
is total: no error is ever returned to the caller. -/
def kill_process (st : AppState) (raw : List ProcessInfo) :
    KillOutcome → AppState
  | KillOutcome.launched true =>
      let r := refresh_processes_cached raw st.process_sort_mode st.process_scroll
      { st with processes := r.1, process_scroll := r.2 }
  | KillOutcome.launched false => st
  | KillOutcome.launchError =>
      let r := refresh_processes_cached raw st.process_sort_mode st.process_scroll
      { st with processes := r.1, process_scroll := r.2 }

/-- Environment data consumed by one `SystemMetrics::update` tick: the
sysinfo snapshot values, the sensor readings and the two `nvidia-smi`
query results. -/
structure UpdateInput where
  global_cpu_usage : ℚ
  per_core : List ℚ
  hwmon_core_temps : Option (List ℚ)
  thermal_core_temps : Option (List ℚ)
  used_memory : Nat
  total_memory : Nat
  root_disk : Option (Nat × Nat)
  total_rx : Nat
  total_tx : Nat
  time_diff : ℚ
  gpu_comprehensive : QueryResult
  gpu_fallback : QueryResult

/-- Model of `SystemMetrics::update`: push global CPU usage, rebuild the per-core
usage vector, refresh per-core temperatures, push memory and root-disk
usage (0.0 when no "/" mount is found), then run the network and GPU
updates and the GPU history push, in source order. -/
def SystemMetrics.update (parse : String → Option ℚ) (st : SystemMetrics)
    (inp : UpdateInput) : SystemMetrics :=
  let st := { st with
    cpu_history := push_history st.max_history st.cpu_history inp.global_cpu_usage }
  let st := { st with per_core_usage := inp.per_core }
  let st := st.update_per_core_temperatures inp.hwmon_core_temps inp.thermal_core_temps
  let memory_usage := (inp.used_memory : ℚ) / (inp.total_memory : ℚ) * 100
  let st := { st with
    memory_history := push_history st.max_history st.memory_history memory_usage }
  let disk_usage : ℚ :=
    match inp.root_disk with
    | some td => ((td.1 : ℚ) - (td.2 : ℚ)) / (td.1 : ℚ) * 100
    | none => 0
  let st := { st with
    disk_history := push_history st.max_history st.disk_history disk_usage }
  let st := st.update_network_stats inp.total_rx inp.total_tx inp.time_diff
  let st := st.update_gpu_stats parse inp.gpu_comprehensive inp.gpu_fallback
  st.update_gpu_history

/-- Claim C2 (amended): after `kill_process(pid)` the process-table refresh
is re-run when the external kill command reports success and when it cannot
be launched at all, but not when the command runs and reports failure
(non-zero exit status); in every case the call returns a plain state and
surfaces no error to the caller. -/
theorem C2_kill_refresh (st : AppState) (raw : List ProcessInfo) :
    kill_process st raw (KillOutcome.launched true) =
      { st with
        processes := (refresh_processes_cached raw st.process_sort_mode st.process_scroll).1,
        process_scroll := (refresh_processes_cached raw st.process_sort_mode st.process_scroll).2 }
    ∧ kill_process st raw KillOutcome.launchError =
      { st with
        processes := (refresh_processes_cached raw st.process_sort_mode st.process_scroll).1,
        process_scroll := (refresh_processes_cached raw st.process_sort_mode st.process_scroll).2 }
    ∧ kill_process st raw (KillOutcome.launched false) = st :=
  ⟨rfl, rfl, rfl⟩

/-- Counterexample to C2 as stated: a kill attempt whose external command
runs but reports failure leaves the process table untouched ([]), although
a refresh would have rebuilt it to the one-entry table (as the launch-error
branch shows on identical inputs) — so the refresh is not re-run
unconditionally. -/
theorem C2_kill_refresh_counterexample :
    (kill_process ⟨[], 0, ProcessSortMode.cpu⟩ [⟨42, "demo", 5, 2048, "1000"⟩]
        (KillOutcome.launched false)).processes = []
    ∧ (kill_process ⟨[], 0, ProcessSortMode.cpu⟩ [⟨42, "demo", 5, 2048, "1000"⟩]
        KillOutcome.launchError).processes = [⟨42, "demo", 5, 2048, "1000"⟩] := by
  constructor
  · rfl
  · decide

theorem push_history_getLast? (m : Nat) (h : List ℚ) (v : ℚ) :
    (push_history m h v).getLast? = some v := by
  simp [push_history]

/-- Claim C4 (amended): the computed network rate is always ≥ 0; it is 0
whenever the elapsed time is ≤ 0 or this is the first observation
(`previous_total == 0`); otherwise it equals
`saturating_sub(current_total, previous_total) / elapsed * 8 / 1000` —
which can itself be 0 when the counter did not increase, so the zero cases
are not exactly the two listed ones. The computed rates are what
`update_network_stats` pushes as the newest history samples. -/
theorem C4_network_rate (prev total : Nat) (td : ℚ) (st : SystemMetrics) (rx tx : Nat) :
    0 ≤ compute_rate prev total td
    ∧ (0 < prev → 0 < td →
        compute_rate prev total td = ((total - prev : Nat) : ℚ) / td * 8 / 1000)
    ∧ (td ≤ 0 ∨ prev = 0 → compute_rate prev total td = 0)
    ∧ (st.update_network_stats rx tx td).network_rx_history.getLast? =
        some (compute_rate st.prev_rx_bytes rx td)
    ∧ (st.update_network_stats rx tx td).network_tx_history.getLast? =
        some (compute_rate st.prev_tx_bytes tx td) := by
  refine ⟨?_, ?_, ?_, ?_, ?_⟩
  · by_cases hc : 0 < prev ∧ 0 < td
    · simp only [compute_rate, if_pos hc]
      have h1 : (0 : ℚ) ≤ ((total - prev : Nat) : ℚ) := Nat.cast_nonneg _
      have h2 : (0 : ℚ) ≤ td := le_of_lt hc.2
      have h3 : (0 : ℚ) ≤ ((total - prev : Nat) : ℚ) / td := div_nonneg h1 h2
      have h4 : (0 : ℚ) ≤ ((total - prev : Nat) : ℚ) / td * 8 :=
        mul_nonneg h3 (by norm_num)
      exact div_nonneg h4 (by norm_num)
    · simp [compute_rate, hc]
  · intro h1 h2
    simp [compute_rate, h1, h2]
  · intro h
    have hc : ¬(0 < prev ∧ 0 < td) := by
      rcases h with h | h
      · rintro ⟨_, h2⟩; exact absurd h2 (not_lt.mpr h)
      · rintro ⟨h1, _⟩; omega
    simp [compute_rate, hc]
  · exact push_history_getLast? _ _ _
  · exact push_history_getLast? _ _ _

/-- Witness for C4: at `prev = 5`, `total = 9`, `elapsed = 2` the formula
case applies; at `prev = 0` the first-observation case applies. -/
theorem C4_network_rate_witness :
    0 ≤ compute_rate 5 9 2
    ∧ compute_rate 5 9 2 = ((9 - 5 : Nat) : ℚ) / 2 * 8 / 1000
    ∧ compute_rate 0 9 2 = 0 := by
  have h1 := C4_network_rate 5 9 2 (SystemMetrics.new 1 0 0) 0 0
  have h2 := C4_network_rate 0 9 2 (SystemMetrics.new 1 0 0) 0 0
  exact ⟨h1.1, h1.2.1 (by norm_num) (by norm_num), h2.2.2.1 (Or.inr rfl) ⟩

/-- Counterexample to C4 as stated: with an elapsed time of 1 second, a
previous total of 100 and an unchanged current total of 100, the rate is 0
although neither `elapsed ≤ 0` nor `previous_total == 0` holds — so "the
rate equals 0 exactly when ..." fails in the only-if direction. -/
theorem C4_network_rate_counterexample :
    compute_rate 100 100 1 = 0 ∧ ¬((1 : ℚ) ≤ 0 ∨ (100 : Nat) = 0) := by
  constructor
  · simp [compute_rate]
  · push_neg
    exact ⟨by norm_num, by norm_num⟩

theorem foldl_net_tick_state (samples : List (Nat × Nat × ℚ)) (st : SystemMetrics) :
    (samples.foldl net_tick st).prev_rx_bytes =
      (samples.getLast?.map (fun x => x.1)).getD st.prev_rx_bytes
    ∧ (samples.foldl net_tick st).prev_tx_bytes =
      (samples.getLast?.map (fun x => x.2.1)).getD st.prev_tx_bytes
    ∧ (samples.foldl net_tick st).initial_rx_bytes = st.initial_rx_bytes
    ∧ (samples.foldl net_tick st).initial_tx_bytes = st.initial_tx_bytes := by
  induction samples using List.reverseRecOn with
  | nil => exact ⟨rfl, rfl, rfl, rfl⟩
  | append_singleton l x ih =>
      have hfold : (l ++ [x]).foldl net_tick st = net_tick (l.foldl net_tick st) x := by
        simp
      rw [hfold]
      obtain ⟨ih1, ih2, ih3, ih4⟩ := ih
      refine ⟨?_, ?_, ?_, ?_⟩
      · show x.1 = ((l ++ [x]).getLast?.map (fun x => x.1)).getD st.prev_rx_bytes
        simp
      · show x.2.1 = ((l ++ [x]).getLast?.map (fun x => x.2.1)).getD st.prev_tx_bytes
        simp
      · exact ih3
      · exact ih4

/-- Claim C5: `total_network_bytes()` returns, for rx and tx independently,
the saturating difference between the counter total recorded at the most
recent tick and the baseline captured once at construction; immediately
after construction, before any tick, it returns (0, 0). -/
theorem C5_session_totals :
    (∀ m crx ctx, (SystemMetrics.new m crx ctx).total_network_bytes = (0, 0))
    ∧ (∀ (st : SystemMetrics) (rx tx : Nat) (td : ℚ),
        (st.update_network_stats rx tx td).total_network_bytes =
          (rx - st.initial_rx_bytes, tx - st.initial_tx_bytes))
    ∧ (∀ (m crx ctx : Nat) (samples : List (Nat × Nat × ℚ)),
        ((samples.foldl net_tick (SystemMetrics.new m crx ctx)).total_network_bytes =
          ((samples.getLast?.map (fun x => x.1)).getD crx - crx,
           (samples.getLast?.map (fun x => x.2.1)).getD ctx - ctx))) := by
  refine ⟨?_, ?_, ?_⟩
  · intro m crx ctx
    simp [SystemMetrics.new, SystemMetrics.total_network_bytes]
  · intro st rx tx td
    rfl
  · intro m crx ctx samples
    have h := foldl_net_tick_state samples (SystemMetrics.new m crx ctx)
    simp only [SystemMetrics.total_network_bytes, h.1, h.2.1, h.2.2.1, h.2.2.2]
    rfl

theorem updateFirst_map (p : α → Bool) (f : α → α) (g : α → β)
    (hg : ∀ x, p x = true → g (f x) = g x) :
    ∀ l : List α, (updateFirst p f l).map g = l.map g := by
  intro l
  induction l with
  | nil => rfl
  | cons x xs ih =>
      by_cases hx : p x = true
      · simp [updateFirst, hx, hg x hx]
      · simp [updateFirst, hx, ih]

theorem updateFirst_find? (p : α → Bool) (f : α → α)
    (hp : ∀ x, p x = true → p (f x) = true) :
    ∀ l : List α, (updateFirst p f l).find? p = (l.find? p).map f := by
  intro l
  induction l with
  | nil => rfl
  | cons x xs ih =>
      by_cases hx : p x = true
      · simp only [updateFirst, if_pos hx]
        rw [List.find?_cons_of_pos _ (hp x hx), List.find?_cons_of_pos _ hx]
        rfl
      · simp only [updateFirst, if_neg hx]
        rw [List.find?_cons_of_neg _ hx, List.find?_cons_of_neg _ hx, ih]

theorem applyPmon_map_fixed (ps : List GpuProcess) (r : PmonRecord)
    (hany : (ps.any (fun q => q.pid == r.pid)) = true) :
    (applyPmon ps r).map (fun q => (q.pid, q.name, q.memory_mb)) =
      ps.map (fun q => (q.pid, q.name, q.memory_mb)) := by
  simp only [applyPmon, if_pos hany]
  exact updateFirst_map (fun q => q.pid == r.pid)
    (fun q => { q with gpu_util := r.gpu_util, mem_util := r.mem_util })
    (fun q => (q.pid, q.name, q.memory_mb))
    (fun x _ => rfl) ps

theorem applyPmon_find? (ps : List GpuProcess) (r : PmonRecord)
    (hany : (ps.any (fun q => q.pid == r.pid)) = true) :
    (applyPmon ps r).find? (fun q => q.pid == r.pid) =
      (ps.find? (fun q => q.pid == r.pid)).map
        (fun q => { q with gpu_util := r.gpu_util, mem_util := r.mem_util }) := by
  simp only [applyPmon, if_pos hany]
  exact updateFirst_find? (fun q => q.pid == r.pid)
    (fun q => { q with gpu_util := r.gpu_util, mem_util := r.mem_util })
    (fun x hx => hx) ps

theorem applyGraphics_map_fixed (ps : List GpuProcess) (g : GraphicsApp)
    (hany : (ps.any (fun q => q.pid == g.pid)) = true) :
    (applyGraphics ps g).map (fun q => (q.pid, q.name, q.gpu_util, q.mem_util)) =
      ps.map (fun q => (q.pid, q.name, q.gpu_util, q.mem_util)) := by
  simp only [applyGraphics, if_pos hany]
  refine updateFirst_map _ _ _ (fun x _ => ?_) ps
  by_cases hm : x.memory_mb < g.used_memory <;> simp [hm]

theorem applyGraphics_find? (ps : List GpuProcess) (g : GraphicsApp)
    (hany : (ps.any (fun q => q.pid == g.pid)) = true) :
    (applyGraphics ps g).find? (fun q => q.pid == g.pid) =
      (ps.find? (fun q => q.pid == g.pid)).map
        (fun q => { q with memory_mb := max q.memory_mb g.used_memory }) := by
  simp only [applyGraphics, if_pos hany]
  have hfun : ∀ q : GpuProcess,
      (if q.memory_mb < g.used_memory then { q with memory_mb := g.used_memory } else q) =
        { q with memory_mb := max q.memory_mb g.used_memory } := by
    intro q
    by_cases hm : q.memory_mb < g.used_memory
    · simp [hm, Nat.max_eq_right (Nat.le_of_lt hm)]
    · simp [hm, Nat.max_eq_left (Nat.le_of_not_lt hm)]
  rw [updateFirst_find? _ _ (fun x hx => by by_cases hm : x.memory_mb < g.used_memory <;>
        simpa [hm] using hx) ps]
  cases ps.find? (fun q => q.pid == g.pid) with
  | none => rfl
  | some q => simp [hfun q]

/-- Claim C3 (amended): in the GPU process merge, for a pid already
present, a monitor (pmon) record overwrites the utilization fields of the
first matching record unconditionally — so a null utilization value from a
later monitor row for the same pid does overwrite a present one — while
pid, name and memory stay untouched; a graphics record leaves pid, name and
the utilization fields untouched and replaces memory with the maximum of
the existing and newly observed values. -/
theorem C3_gpu_merge_field_rules (ps : List GpuProcess) (r : PmonRecord) (g : GraphicsApp) :
    ((ps.any (fun q => q.pid == r.pid)) = true →
      ((applyPmon ps r).map (fun q => (q.pid, q.name, q.memory_mb)) =
        ps.map (fun q => (q.pid, q.name, q.memory_mb))
      ∧ (applyPmon ps r).find? (fun q => q.pid == r.pid) =
          (ps.find? (fun q => q.pid == r.pid)).map
            (fun q => { q with gpu_util := r.gpu_util, mem_util := r.mem_util })))
    ∧ ((ps.any (fun q => q.pid == g.pid)) = true →
      ((applyGraphics ps g).map (fun q => (q.pid, q.name, q.gpu_util, q.mem_util)) =
        ps.map (fun q => (q.pid, q.name, q.gpu_util, q.mem_util))
      ∧ (applyGraphics ps g).find? (fun q => q.pid == g.pid) =
          (ps.find? (fun q => q.pid == g.pid)).map
            (fun q => { q with memory_mb := max q.memory_mb g.used_memory }))) :=
  ⟨fun hany => ⟨applyPmon_map_fixed ps r hany, applyPmon_find? ps r hany⟩,
   fun hany => ⟨applyGraphics_map_fixed ps g hany, applyGraphics_find? ps g hany⟩⟩

/-- Witness for C3: one existing record with pid 100 and present
utilization, a monitor row with null utilization for the same pid (which
resets it), and a graphics row with larger memory (which wins). -/
theorem C3_gpu_merge_field_rules_witness :
    (applyPmon [⟨100, "proc_a", 500, some 7, some 8⟩] ⟨100, none, none, "cmd"⟩).find?
        (fun q => q.pid == (PmonRecord.mk 100 none none "cmd").pid) =
      some ⟨100, "proc_a", 500, none, none⟩
    ∧ (applyGraphics [⟨100, "proc_a", 500, some 7, some 8⟩] ⟨100, "gfx", 800⟩).find?
        (fun q => q.pid == (GraphicsApp.mk 100 "gfx" 800).pid) =
      some ⟨100, "proc_a", 800, some 7, some 8⟩ := by
  have h := C3_gpu_merge_field_rules [⟨100, "proc_a", 500, some 7, some 8⟩]
    ⟨100, none, none, "cmd"⟩ ⟨100, "gfx", 800⟩
  have h1 := (h.1 (by decide)).2
  have h2 := (h.2 (by decide)).2
  exact ⟨h1.trans (by decide), h2.trans (by decide)⟩

/-- Counterexample to C3 as stated: with compute source
`{pid 100, mem 500}` and two monitor rows for pid 100 — first `gpu 40%,
mem 30%`, then `-`/`-` (null) — the merged record ends with null
utilization: the present value 40% was overwritten by null. Dropping the
second monitor row keeps the 40%. -/
theorem C3_gpu_merge_field_rules_counterexample :
    get_gpu_processes [⟨100, "proc_a", 500⟩]
        [⟨100, some 40, some 30, "proc_a"⟩, ⟨100, none, none, "proc_a"⟩] [] =
      [⟨100, "proc_a", 500, none, none⟩]
    ∧ get_gpu_processes [⟨100, "proc_a", 500⟩] [⟨100, some 40, some 30, "proc_a"⟩] [] =
      [⟨100, "proc_a", 500, some 40, some 30⟩] := by
  constructor
  · decide
  · decide

/-- Claim C6: the GPU process merge starts from the compute-app list (a);
a monitor (b) record whose pid is absent is inserted with memory 0 and the
trailing command name, one whose pid is present only rewrites the
utilization fields; a graphics (c) record whose pid is absent is inserted,
one whose pid is present replaces memory only if strictly greater (i.e.
the maximum wins); the final list is sorted descending by memory; and the
claim's concrete instance merges to `{pid 100, name from (a), memory 800,
gpu_util 40%}`. -/
theorem C6_gpu_merge_algorithm (a : List ComputeApp) (b : List PmonRecord)
    (c : List GraphicsApp) (ps : List GpuProcess) (r : PmonRecord) (g : GraphicsApp) :
    (get_gpu_processes a [] [] =
      List.insertionSort memGe
        (a.map (fun x => GpuProcess.mk x.pid x.name x.used_memory none none)))
    ∧ ((ps.any (fun q => q.pid == r.pid)) = false →
        applyPmon ps r = ps ++ [⟨r.pid, r.command, 0, r.gpu_util, r.mem_util⟩])
    ∧ ((ps.any (fun q => q.pid == r.pid)) = true →
        (applyPmon ps r).map (fun q => (q.pid, q.name, q.memory_mb)) =
          ps.map (fun q => (q.pid, q.name, q.memory_mb)))
    ∧ ((ps.any (fun q => q.pid == g.pid)) = false →
        applyGraphics ps g = ps ++ [⟨g.pid, g.name, g.used_memory, none, none⟩])
    ∧ ((ps.any (fun q => q.pid == g.pid)) = true →
        (applyGraphics ps g).find? (fun q => q.pid == g.pid) =
          (ps.find? (fun q => q.pid == g.pid)).map
            (fun q => { q with memory_mb := max q.memory_mb g.used_memory }))
    ∧ List.Sorted memGe (get_gpu_processes a b c)
    ∧ get_gpu_processes [⟨100, "proc_a", 500⟩] [⟨100, some 40, none, "cmd_b"⟩]
        [⟨100, "proc_c", 800⟩] = [⟨100, "proc_a", 800, some 40, none⟩] := by
  refine ⟨rfl, ?_, ?_, ?_, ?_, ?_, by decide⟩
  · intro hany
    simp only [applyPmon]
    rw [if_neg (by simp [hany])]
  · exact applyPmon_map_fixed ps r
  · intro hany
    simp only [applyGraphics]
    rw [if_neg (by simp [hany])]
  · exact applyGraphics_find? ps g
  · exact List.sorted_insertionSort memGe _

/-- Witness for C6: inserting a monitor row and a graphics row for pids not
yet present. -/
theorem C6_gpu_merge_algorithm_witness :
    applyPmon [] ⟨7, some 3, none, "cmd_x"⟩ = [⟨7, "cmd_x", 0, some 3, none⟩]
    ∧ applyGraphics [] ⟨9, "gfx_y", 123⟩ = [⟨9, "gfx_y", 123, none, none⟩] := by
  have h := C6_gpu_merge_algorithm [] [] [] [] ⟨7, some 3, none, "cmd_x"⟩ ⟨9, "gfx_y", 123⟩
  exact ⟨h.2.1 (by decide), h.2.2.2.1 (by decide)⟩

/-- Claim C7: with `L = logical core count` and `P = |physical temps| > 0`,
if `L > P` every logical core `i < L` is assigned the physical temperature
at index `i % P` (the source maps `i` directly for `i < P`, which coincides
with `i % P`); if `L ≤ P` logical core `i` is assigned the temperature at
index `i` directly. In both cases the emitted vector has length `L`. -/
theorem C7_logical_physical_mapping (st : SystemMetrics) (phys : List ℚ)
    (th : Option (List ℚ)) (i : Nat) (hP : 0 < phys.length) :
    (phys.length < st.per_core_usage.length →
      ((st.update_per_core_temperatures (some phys) th).per_core_temperatures.length =
          st.per_core_usage.length
       ∧ (i < st.per_core_usage.length →
           (st.update_per_core_temperatures (some phys) th).per_core_temperatures.getD i 0 =
             phys.getD (i % phys.length) 0)))
    ∧ (st.per_core_usage.length ≤ phys.length →
      ((st.update_per_core_temperatures (some phys) th).per_core_temperatures.length =
          st.per_core_usage.length
       ∧ (i < st.per_core_usage.length →
           (st.update_per_core_temperatures (some phys) th).per_core_temperatures.getD i 0 =
             phys.getD i 0))) := by
  constructor
  · intro hPL
    have hcond : 0 < phys.length ∧ phys.length < st.per_core_usage.length := ⟨hP, hPL⟩
    simp only [SystemMetrics.update_per_core_temperatures, if_pos hcond]
    constructor
    · simp
    · intro hi
      have hlen : i < ((List.range st.per_core_usage.length).map (fun logical_core =>
          phys.getD
            (if logical_core < phys.length then logical_core
             else logical_core % phys.length) 0)).length := by
        simpa using hi
      rw [List.getD_eq_getElem _ _ hlen, List.getElem_map]
      rw [List.getElem_range]
      by_cases hiP : i < phys.length
      · rw [if_pos hiP, Nat.mod_eq_of_lt hiP]
      · rw [if_neg hiP]
  · intro hLP
    have hcond : ¬(0 < phys.length ∧ phys.length < st.per_core_usage.length) := by
      rintro ⟨_, h2⟩; omega
    simp only [SystemMetrics.update_per_core_temperatures, if_neg hcond, if_pos hP]
    constructor
    · simp
    · intro hi
      have hlen : i < ((List.range st.per_core_usage.length).map (fun logical_core =>
          if logical_core < phys.length then phys.getD logical_core 0
          else phys.getD (phys.length - 1) 0)).length := by
        simpa using hi
      rw [List.getD_eq_getElem _ _ hlen, List.getElem_map]
      rw [List.getElem_range]
      rw [if_pos (by omega)]

/-- Witness for C7: with 4 physical temperatures and 8 logical cores,
logical core 5 is assigned the temperature at physical index 5 % 4 = 1. -/
theorem C7_logical_physical_mapping_witness :
    (({ SystemMetrics.new 3 0 0 with
        per_core_usage := [0, 0, 0, 0, 0, 0, 0, 0] }.update_per_core_temperatures
          (some [50, 60, 70, 80]) none).per_core_temperatures.getD 5 0 = 60)
    ∧ ([50, 60, 70, (80 : ℚ)].getD (5 % 4) 0 = 60) := by
  have h := C7_logical_physical_mapping
    { SystemMetrics.new 3 0 0 with per_core_usage := [0, 0, 0, 0, 0, 0, 0, 0] }
    [50, 60, 70, 80] none 5 (by decide)
  have h2 := (h.1 (by decide)).2 (by decide)
  exact ⟨h2.trans (by decide), by decide⟩

/-- Claim C8 (amended: the accepted readings must carry pairwise-distinct
core indices): the emitted per-core vector is the readings stably sorted
ascending by the parsed core index and emitted densely; under distinct
indices the result is invariant under any permutation of the encounter
order. (With duplicate indices the stable sort keeps encounter order among
ties, so permutation invariance can fail.) -/
theorem C8_core_temp_sort_invariant (l l2 : List (Nat × ℚ))
    (hnd : (l.map Prod.fst).Nodup) (hperm : l.Perm l2) :
    read_hwmon_core_temperatures l = read_hwmon_core_temperatures l2
    ∧ List.Sorted coreLe (List.insertionSort coreLe l)
    ∧ (read_hwmon_core_temperatures l).length = l.length := by
  have p1 : (List.insertionSort coreLe l).Perm l := List.perm_insertionSort coreLe l
  have p2 : (List.insertionSort coreLe l2).Perm l2 := List.perm_insertionSort coreLe l2
  have pp : (List.insertionSort coreLe l).Perm (List.insertionSort coreLe l2) :=
    p1.trans (hperm.trans p2.symm)
  have s1 : List.Sorted coreLe (List.insertionSort coreLe l) :=
    List.sorted_insertionSort coreLe l
  have s2 : List.Sorted coreLe (List.insertionSort coreLe l2) :=
    List.sorted_insertionSort coreLe l2
  have hnd1 : ((List.insertionSort coreLe l).map Prod.fst).Nodup :=
    ((p1.map Prod.fst).nodup_iff).mpr hnd
  have hnd2 : ((List.insertionSort coreLe l2).map Prod.fst).Nodup :=
    ((pp.map Prod.fst).nodup_iff).mp hnd1
  have ss1 : List.Sorted coreLt (List.insertionSort coreLe l) := by
    have hne := List.pairwise_map.mp hnd1
    exact (s1.and hne).imp (fun h => Nat.lt_of_le_of_ne h.1 h.2)
  have ss2 : List.Sorted coreLt (List.insertionSort coreLe l2) := by
    have hne := List.pairwise_map.mp hnd2
    exact (s2.and hne).imp (fun h => Nat.lt_of_le_of_ne h.1 h.2)
  have heq : List.insertionSort coreLe l = List.insertionSort coreLe l2 :=
    List.eq_of_perm_of_sorted pp ss1 ss2
  refine ⟨?_, s1, ?_⟩
  · rw [read_hwmon_core_temperatures, read_hwmon_core_temperatures, heq]
  · rw [read_hwmon_core_temperatures, List.length_map, List.length_insertionSort]

/-- Witness for C8: labels "Core 1", "Core 0" encountered in that order and
in the reverse order produce the same ordered vector. -/
theorem C8_core_temp_sort_invariant_witness :
    read_hwmon_core_temperatures [(1, 20), (0, 10)] =
      read_hwmon_core_temperatures [(0, 10), (1, 20)]
    ∧ read_hwmon_core_temperatures [(1, 20), (0, 10)] = [10, 20] := by
  have h := C8_core_temp_sort_invariant [(1, 20), (0, 10)] [(0, 10), (1, 20)]
    (by decide) (List.Perm.swap (0, 10) (1, 20) [])
  exact ⟨h.1, by decide⟩

/-- Counterexample to C8 as stated: two accepted readings sharing core
index 0 — the same multiset of readings in two encounter orders yields two
different output vectors, because the stable sort keeps ties in encounter
order; so the output does depend on the order the entries are encountered. -/
theorem C8_core_temp_sort_invariant_counterexample :
    ([((0 : Nat), (40 : ℚ)), (0, 50)]).Perm [((0 : Nat), (50 : ℚ)), (0, 40)]
    ∧ read_hwmon_core_temperatures [(0, 40), (0, 50)] = [40, 50]
    ∧ read_hwmon_core_temperatures [(0, 50), (0, 40)] = [50, 40] := by
  refine ⟨List.Perm.swap (0, 50) (0, 40) [], by decide, by decide⟩

theorem push_history_length (m : Nat) (h : List ℚ) (v : ℚ) :
    (push_history m h v).length =
      if m ≤ h.length then max h.length 1 else h.length + 1 := by
  by_cases hc : m ≤ h.length
  · simp only [push_history, if_pos hc, List.length_append, List.length_tail,
      List.length_cons, List.length_nil]
    omega
  · simp [push_history, hc]

/-- Claim C9: on every tick exactly one sample is appended to the GPU
usage-percent history and exactly one to the VRAM-percent history (0.0 when
the value is absent), so the histories are never gapped; and the derived
VRAM-used-percent equals used/total·100 when both components are present
with total > 0, and is absent when the total is absent or zero. -/
theorem C9_gpu_history_push (st : SystemMetrics) (u t : ℚ) :
    (st.update_gpu_history.gpu_usage_history.getLast? = some (st.gpu_usage.getD 0))
    ∧ (st.update_gpu_history.gpu_memory_percent_history.getLast? =
        some (st.gpu_memory_usage_percent.getD 0))
    ∧ (st.update_gpu_history.gpu_usage_history.length =
        if st.max_history ≤ st.gpu_usage_history.length
        then max st.gpu_usage_history.length 1
        else st.gpu_usage_history.length + 1)
    ∧ (st.update_gpu_history.gpu_memory_percent_history.length =
        if st.max_history ≤ st.gpu_memory_percent_history.length
        then max st.gpu_memory_percent_history.length 1
        else st.gpu_memory_percent_history.length + 1)
    ∧ (st.gpu_memory_used = some u → st.gpu_memory_total = some t → 0 < t →
        st.gpu_memory_usage_percent = some (u / t * 100))
    ∧ (st.gpu_memory_total = none → st.gpu_memory_usage_percent = none)
    ∧ (st.gpu_memory_total = some 0 → st.gpu_memory_usage_percent = none) := by
  refine ⟨push_history_getLast? _ _ _, push_history_getLast? _ _ _,
    push_history_length _ _ _, push_history_length _ _ _, ?_, ?_, ?_⟩
  · intro h1 h2 h3
    simp [SystemMetrics.gpu_memory_usage_percent, h1, h2, h3]
  · intro h
    cases hu : st.gpu_memory_used <;>
      simp [SystemMetrics.gpu_memory_usage_percent, h, hu]
  · intro h
    cases hu : st.gpu_memory_used <;>
      simp [SystemMetrics.gpu_memory_usage_percent, h, hu]

/-- A concrete state for the C9 witness: GPU present with usage 25 %,
50 MB used of 200 MB total, and empty histories. -/
def C9st : SystemMetrics :=
  { SystemMetrics.new 3 0 0 with
    gpu_usage := some 25, gpu_memory_used := some 50, gpu_memory_total := some 200 }

/-- Witness for C9: 50/200·100 = 25 % VRAM, and one tick appends exactly
one sample (the defaulted usage and VRAM percentages) to each history. -/
theorem C9_gpu_history_push_witness :
    C9st.gpu_memory_usage_percent = some 25
    ∧ C9st.update_gpu_history.gpu_usage_history.getLast? = some 25
    ∧ C9st.update_gpu_history.gpu_memory_percent_history.getLast? = some 25
    ∧ C9st.update_gpu_history.gpu_usage_history.length = 1 := by
  have h := C9_gpu_history_push C9st 50 200
  have h5 : C9st.gpu_memory_usage_percent = some (50 / 200 * 100 : ℚ) :=
    h.2.2.2.2.1 rfl rfl (by norm_num)
  have h5x : C9st.gpu_memory_usage_percent = some 25 := h5.trans (by norm_num)
  refine ⟨h5x, ?_, ?_, ?_⟩
  · exact h.1.trans (by decide)
  · rw [h.2.1, h5x]
    rfl
  · exact (h.2.2.1).trans (by decide)

/-- Claim C10: when the comprehensive GPU query fails (command error,
non-success exit, or fewer than 7 fields) and the reduced fallback query
succeeds with at least 2 fields, `update_gpu_stats` sets fan speed, power
draw, memory used, memory total and name to absent (so nothing from an
earlier tick survives the capability downgrade), while usage and
temperature are re-parsed from the fallback fields. -/
theorem C10_gpu_fallback_clears (parse : String → Option ℚ) (st : SystemMetrics)
    (comp : QueryResult) (parts : List String)
    (hcomp : comp = QueryResult.failure ∨
      ∃ ps, comp = QueryResult.line ps ∧ ps.length < 7)
    (hlen : 2 ≤ parts.length) :
    ((st.update_gpu_stats parse comp (QueryResult.line parts)).gpu_fan_speed = none)
    ∧ ((st.update_gpu_stats parse comp (QueryResult.line parts)).gpu_power_draw = none)
    ∧ ((st.update_gpu_stats parse comp (QueryResult.line parts)).gpu_memory_used = none)
    ∧ ((st.update_gpu_stats parse comp (QueryResult.line parts)).gpu_memory_total = none)
    ∧ ((st.update_gpu_stats parse comp (QueryResult.line parts)).gpu_name = none)
    ∧ ((st.update_gpu_stats parse comp (QueryResult.line parts)).gpu_usage =
        parse (parts.getD 0 ""))
    ∧ ((st.update_gpu_stats parse comp (QueryResult.line parts)).gpu_temperature =
        parse (parts.getD 1 "")) := by
  have key : st.update_gpu_stats parse comp (QueryResult.line parts) =
      apply_fallback_query parse st (QueryResult.line parts) := by
    rcases hcomp with h | ⟨ps, h, hlt⟩
    · rw [h]
      rfl
    · rw [h]
      simp only [SystemMetrics.update_gpu_stats]
      rw [if_neg (by omega)]
  rw [key]
  simp only [apply_fallback_query]
  rw [if_pos hlen]
  exact ⟨rfl, rfl, rfl, rfl, rfl, rfl, rfl⟩

/-- A stale GPU state for the C10 witness: every advanced field still holds
a value from an earlier comprehensive tick. -/
def C10stale : SystemMetrics :=
  { SystemMetrics.new 3 0 0 with
    gpu_fan_speed := some 30, gpu_power_draw := some 100,
    gpu_memory_used := some 1, gpu_memory_total := some 2, gpu_name := some "Old" }

/-- Witness for C10: the comprehensive query fails outright, the fallback
line has 2 fields, and every stale advanced field is cleared. -/
theorem C10_gpu_fallback_clears_witness :
    ((C10stale.update_gpu_stats (fun _ => some 1) QueryResult.failure
        (QueryResult.line ["12", "50"])).gpu_fan_speed = none)
    ∧ ((C10stale.update_gpu_stats (fun _ => some 1) QueryResult.failure
        (QueryResult.line ["12", "50"])).gpu_power_draw = none)
    ∧ ((C10stale.update_gpu_stats (fun _ => some 1) QueryResult.failure
        (QueryResult.line ["12", "50"])).gpu_memory_used = none)
    ∧ ((C10stale.update_gpu_stats (fun _ => some 1) QueryResult.failure
        (QueryResult.line ["12", "50"])).gpu_memory_total = none)
    ∧ ((C10stale.update_gpu_stats (fun _ => some 1) QueryResult.failure
        (QueryResult.line ["12", "50"])).gpu_name = none)
    ∧ C10stale.gpu_fan_speed = some 30 := by
  have h := C10_gpu_fallback_clears (fun _ => some 1) C10stale QueryResult.failure
    ["12", "50"] (Or.inl rfl) (by decide)
  exact ⟨h.1, h.2.1, h.2.2.1, h.2.2.2.1, h.2.2.2.2.1, rfl⟩

end Rmon
